import Mathlib

/-!
Verification development for the `fedpie` FPDS proxy
(`netlify/functions/fpds-proxy.js`).  The repository file holds two
near-duplicate variants of the handler; we embed both.  The first
("strict") variant is lines 1-184 of the file: `handler`,
`buildFPDSQuery`, `parseAtomFeed`, `extractTag`, `extractTagAttribute`.
The second ("lenient") variant follows it with the same function names;
we suffix the embeddings `V1` and `V2`.

Strings are modelled as `List Char` internally (`String` at the API
boundary).  The hand-rolled regular expressions of the source are
embedded as explicit matchers with JS semantics: leftmost match,
greedy with backtracking where the pattern requires it, case-insensitive
where the `i` flag is set.  JS numbers are modelled as `JSNum`
(NaN / signed infinity / exact rational); `parseFloat` follows the
ECMAScript prefix-parsing rules, with doubles abstracted to rationals.
-/

namespace Fedpie

/-! Section: Character helpers -/

/-- Case-insensitive character comparison, as produced by the `i` regex
flag (ASCII simple folding). -/
def eqCI (a b : Char) : Bool := a.toLower == b.toLower

/-- Digit value of an ASCII digit character. -/
def digitVal (c : Char) : Nat := c.toNat - 48

/-- `startsWithL n s`: `s` begins with `n` (case-sensitive). -/
def startsWithL : List Char → List Char → Bool
  | [], _ => true
  | _, [] => false
  | n :: ns, c :: cs => n == c && startsWithL ns cs

/-- Drop a case-sensitive literal from the head of `s`, or fail. -/
def dropStart? : List Char → List Char → Option (List Char)
  | [], s => some s
  | _, [] => none
  | n :: ns, c :: cs => if n = c then dropStart? ns cs else none

/-- Match a literal case-insensitively at the head, returning the rest. -/
def matchLitCI : List Char → List Char → Option (List Char)
  | [], s => some s
  | _, [] => none
  | p :: ps, c :: cs => if eqCI p c then matchLitCI ps cs else none

/-! Section: The `extractTag` regexes (fpds-proxy.js lines 167-177 / 412-422)

The first regex is `<(?:ns\d+:)?TAG[^>]*>([^<]*)<` with flag `i`; the
second is `<TAG[^>]*>([^<]*)<` with flag `i`.  Both sub-automata
`[^>]*>` and `([^<]*)<` are deterministic (the starred class excludes
the closing literal), and `\d+:` is deterministic for the same reason,
so the only branch point is the optional namespace group, tried
greedily (with the group) first. -/

/-- Match the optional-group body `ns\d+:` (case-insensitively), i.e.
`ns`, one or more digits, then a colon. -/
def nsMark (s : List Char) : Option (List Char) :=
  match matchLitCI ['n', 's'] s with
  | none => none
  | some rest =>
    if (rest.takeWhile Char.isDigit).isEmpty then none
    else
      match rest.dropWhile Char.isDigit with
      | ':' :: r => some r
      | _ => none

/-- Match the tail `[^>]*>([^<]*)<` of the text-extraction regex,
returning the capture group. -/
def tagTail (s : List Char) : Option (List Char) :=
  match s.dropWhile (fun c => c ≠ '>') with
  | '>' :: r =>
    match r.dropWhile (fun c => c ≠ '<') with
    | '<' :: _ => some (r.takeWhile (fun c => c ≠ '<'))
    | _ => none
  | _ => none

/-- Attempt the namespaced regex `<(?:ns\d+:)?TAG[^>]*>([^<]*)<` at one
start position.  The optional group is greedy: the alternative that
consumes `ns\d+:` is tried first, and the engine backtracks to the
group-skipping alternative if the continuation fails. -/
def tryAtNs (tag : List Char) (s : List Char) : Option (List Char) :=
  match s with
  | '<' :: r =>
    let withNs :=
      match nsMark r with
      | some r2 =>
        match matchLitCI tag r2 with
        | some r3 => tagTail r3
        | none => none
      | none => none
    match withNs with
    | some cap => some cap
    | none =>
      match matchLitCI tag r with
      | some r2 => tagTail r2
      | none => none
  | _ => none

/-- Attempt the bare regex `<TAG[^>]*>([^<]*)<` at one start position. -/
def tryAtBare (tag : List Char) (s : List Char) : Option (List Char) :=
  match s with
  | '<' :: r =>
    match matchLitCI tag r with
    | some r2 => tagTail r2
    | none => none
  | _ => none

/-- Leftmost-match search: JS `String.prototype.match` tries each start
position left to right (including the end of the string). -/
def findFirst (f : List Char → Option (List Char)) : List Char → Option (List Char)
  | [] => f []
  | c :: rest =>
    match f (c :: rest) with
    | some cap => some cap
    | none => findFirst f rest

/-- `String.prototype.trim` on a captured char list: strip leading and
trailing whitespace. -/
def trimS (l : List Char) : String :=
  String.mk (((l.dropWhile Char.isWhitespace).reverse.dropWhile Char.isWhitespace).reverse)

/-- `extractTag` (fpds-proxy.js lines 167-177, identical at 412-422):
try the namespaced regex first, then the bare one; on a match return
the trimmed capture, else `null`. -/
def extractTag (xml : String) (tagName : String) : Option String :=
  match findFirst (tryAtNs tagName.data) xml.data with
  | some cap => some (trimS cap)
  | none =>
    match findFirst (tryAtBare tagName.data) xml.data with
    | some cap => some (trimS cap)
    | none => none

/-! Section: The `extractTagAttribute` regex (lines 180-184 / 425-429)

`<(?:ns\d+:)?TAG[^>]*ATTR="([^"]*)"` with flag `i`.  Here `[^>]*` is
greedy with genuine backtracking: the engine first consumes up to the
next `>` (or the end), then retreats one character at a time looking
for a position where `ATTR="…"` matches. -/

/-- Attempt `ATTR="([^"]*)"` at the current position. -/
def attrHit (attr : List Char) (s : List Char) : Option (List Char) :=
  match matchLitCI attr s with
  | some ('=' :: '"' :: r) =>
    match r.dropWhile (fun c => c ≠ '"') with
    | '"' :: _ => some (r.takeWhile (fun c => c ≠ '"'))
    | _ => none
  | _ => none

/-- Greedy `[^>]*` followed by `ATTR="([^"]*)"`: deepest (longest)
consumption is attempted first, then backtrack. -/
def attrScan (attr : List Char) : List Char → Option (List Char)
  | [] => attrHit attr []
  | c :: rest =>
    if c = '>' then attrHit attr (c :: rest)
    else
      match attrScan attr rest with
      | some cap => some cap
      | none => attrHit attr (c :: rest)

/-- Attempt the attribute regex at one start position. -/
def tryAtAttr (tag attr : List Char) (s : List Char) : Option (List Char) :=
  match s with
  | '<' :: r =>
    let withNs :=
      match nsMark r with
      | some r2 =>
        match matchLitCI tag r2 with
        | some r3 => attrScan attr r3
        | none => none
      | none => none
    match withNs with
    | some cap => some cap
    | none =>
      match matchLitCI tag r with
      | some r2 => attrScan attr r2
      | none => none
  | _ => none

/-- `extractTagAttribute` (lines 180-184 / 425-429). -/
def extractTagAttribute (xml tagName attrName : String) : Option String :=
  match findFirst (tryAtAttr tagName.data attrName.data) xml.data with
  | some cap => some (trimS cap)
  | none => none

/-! Section: JS numbers and `parseFloat` -/

/-- A JS number as produced by `parseFloat`: NaN, a signed infinity, or
a finite value (doubles abstracted to exact rationals, kept as a
fraction `num / den` in lowest terms with `den > 0`, so that structural
equality is numeric equality). -/
inductive JSNum where
  | nan : JSNum
  | inf (neg : Bool) : JSNum
  | val (num : Int) (den : Nat) : JSNum
deriving DecidableEq, Repr

/-- Euclid's algorithm with explicit fuel (the first argument strictly
decreases, so fuel `m + 1` suffices). -/
def gcdF : Nat → Nat → Nat → Nat
  | 0, _, n => n
  | Nat.succ f, m, n => if m = 0 then n else gcdF f (n % m) m

/-- Greatest common divisor (kernel-reducible). -/
def natGcd (m n : Nat) : Nat := gcdF (m + 1) m n

/-- Lowest-terms finite `JSNum` from a sign and a fraction of naturals. -/
def mkVal (neg : Bool) (num den : Nat) : JSNum :=
  let g := natGcd num den
  let n := num / g
  let d := den / g
  JSNum.val (if neg && n ≠ 0 then -(n : Int) else (n : Int)) d

/-- Little-endian value of a digit-character list. -/
def ofLE : List Char → Nat
  | [] => 0
  | c :: cs => digitVal c + 10 * ofLE cs

/-- Big-endian (usual reading order) value of a digit-character list. -/
def decValue (l : List Char) : Nat := ofLE l.reverse

/-- The optional exponent part `[eE][+-]?\d+` of a decimal literal; an
exponent marker not followed by digits is not part of the longest valid
prefix and contributes nothing. -/
def expPart (l : List Char) : Int :=
  let signed : Bool × List Char :=
    match l with
    | '-' :: r => (true, r)
    | '+' :: r => (false, r)
    | _ => (false, l)
  let ds := signed.2.takeWhile Char.isDigit
  if ds.isEmpty then 0
  else if signed.1 then -(decValue ds : Int) else (decValue ds : Int)

/-- ECMAScript `parseFloat`: skip leading whitespace, optional sign,
then the longest prefix that is `Infinity` or a decimal literal
(`\d+(\.\d*)?` or `\.\d+`, optional exponent); NaN when no such prefix
exists.  Rounding to binary doubles is abstracted away (exact value). -/
def parseFloat (s : String) : JSNum :=
  let l := s.data.dropWhile Char.isWhitespace
  let signed : Bool × List Char :=
    match l with
    | '-' :: r => (true, r)
    | '+' :: r => (false, r)
    | _ => (false, l)
  let neg := signed.1
  let l2 := signed.2
  if startsWithL ['I', 'n', 'f', 'i', 'n', 'i', 't', 'y'] l2 then JSNum.inf neg
  else
    let ip := l2.takeWhile Char.isDigit
    let r1 := l2.dropWhile Char.isDigit
    let fracd : List Char × List Char :=
      match r1 with
      | '.' :: rr => (rr.takeWhile Char.isDigit, rr.dropWhile Char.isDigit)
      | _ => ([], r1)
    let fp := fracd.1
    let r2 := fracd.2
    if ip.isEmpty && fp.isEmpty then JSNum.nan
    else
      let e : Int :=
        match r2 with
        | 'e' :: rr => expPart rr
        | 'E' :: rr => expPart rr
        | _ => 0
      let num0 : Nat := decValue ip * 10 ^ fp.length + decValue fp
      let den0 : Nat := 10 ^ fp.length
      if 0 ≤ e then mkVal neg (num0 * 10 ^ e.toNat) den0
      else mkVal neg num0 (den0 * 10 ^ (-e).toNat)

/-- JS `>` comparison of a `JSNum` against `0` (`NaN > 0` is false). -/
def jsGtZero : JSNum → Bool
  | JSNum.nan => false
  | JSNum.inf neg => !neg
  | JSNum.val num _ => decide (0 < num)

/-! Section: JS truthiness over string-or-null values -/

/-- Truthiness of a JS string-or-null value: `null` and `""` are falsy. -/
def jsTruthy : Option String → Bool
  | none => false
  | some s => s ≠ ""

/-- JS `a || b` on string-or-null values. -/
def jsOr (a b : Option String) : Option String :=
  if jsTruthy a then a else b

/-- JS `a || d` with a (truthy) string default, as in
`extractTag(...) || '0'`. -/
def jsOrStr (a : Option String) (d : String) : String :=
  match a with
  | some s => if s = "" then d else s
  | none => d

/-! Section: Entry splitting (lines 116-120 / 347-353)

The entry regex is `/<entry>([\s\S]*?)<\/entry>/g` (case-sensitive):
repeatedly find the next `<entry>`, then lazily the next `</entry>`,
capture what lies between, and resume after the close marker. -/

/-- Split at the first (case-sensitive) occurrence of `needle`,
returning the text before it and the text after it. -/
def splitFirst (needle : List Char) : List Char → Option (List Char × List Char)
  | [] => none
  | c :: rest =>
    match dropStart? needle (c :: rest) with
    | some after => some ([], after)
    | none =>
      match splitFirst needle rest with
      | some pa => some (c :: pa.1, pa.2)
      | none => none

/-- One global-regex pass of `/<entry>([\s\S]*?)<\/entry>/g`.  Each
iteration consumes both markers, so the residue shrinks by at least one
character; fuel `length + 1` therefore never runs out. -/
def entriesAux : Nat → List Char → List (List Char)
  | 0, _ => []
  | Nat.succ fuel, s =>
    match splitFirst ['<', 'e', 'n', 't', 'r', 'y', '>'] s with
    | none => []
    | some pa =>
      match splitFirst ['<', '/', 'e', 'n', 't', 'r', 'y', '>'] pa.2 with
      | none => []
      | some cb => cb.1 :: entriesAux fuel cb.2

/-- All `<entry>…</entry>` captures of a feed document, in order. -/
def extractEntries (xml : String) : List String :=
  (entriesAux (xml.data.length + 1) xml.data).map String.mk

/-! Section: ContractRecord (lines 123-153 / 356-393) -/

/-- The flat record built per entry; field set and names follow the
source object literal.  `null` is `none`. -/
structure Contract where
  piid : Option String
  agency : Option String
  agencyName : Option String
  vendorName : Option String
  vendorUEI : Option String
  parentCompany : Option String
  obligatedAmount : JSNum
  baseAndAllOptions : JSNum
  signedDate : Option String
  startDate : Option String
  completionDate : Option String
  naicsCode : Option String
  naicsDescription : Option String
  pscCode : Option String
  setAside : Option String
  description : Option String
deriving DecidableEq, Repr

/-- `parseFloat(extractTag(e, t) || '0')` (lines 135-136 / 371-372). -/
def numField (e : String) (t : String) : JSNum :=
  parseFloat (jsOrStr (extractTag e t) "0")

/-- The entry-to-record object literal of the first variant
(lines 123-153). -/
def mkContractV1 (e : String) : Contract where
  piid := extractTag e "PIID"
  agency := extractTag e "agencyID"
  agencyName := extractTagAttribute e "agencyID" "name"
  vendorName := jsOr (extractTag e "UEI_NAME") (extractTag e "vendorName")
  vendorUEI := extractTag e "VENDOR_UEI"
  parentCompany := extractTag e "ULTIMATE_UEI_NAME"
  obligatedAmount := numField e "obligatedAmount"
  baseAndAllOptions := numField e "baseAndAllOptionsValue"
  signedDate := extractTag e "signedDate"
  startDate := extractTag e "effectiveDate"
  completionDate := extractTag e "currentCompletionDate"
  naicsCode := jsOr (extractTag e "NAICS_CODE") (extractTag e "principalNAICSCode")
  naicsDescription := jsOr (extractTag e "NAICS_DESCRIPTION") (extractTag e "principalNAICSDescription")
  pscCode := jsOr (extractTag e "PRODUCT_OR_SERVICE_CODE") (extractTag e "productOrServiceCode")
  setAside := extractTag e "typeOfSetAside"
  description := extractTag e "descriptionOfContractRequirement"

/-- The entry-to-record object literal of the second variant
(lines 356-393): extra vendor/parent/completion aliases, and the alias
priorities of the classification fields are reversed. -/
def mkContractV2 (e : String) : Contract where
  piid := extractTag e "PIID"
  agency := extractTag e "agencyID"
  agencyName := extractTagAttribute e "agencyID" "name"
  vendorName := jsOr (jsOr (extractTag e "UEI_NAME") (extractTag e "vendorName"))
    (extractTag e "UEILegalBusinessName")
  vendorUEI := extractTag e "VENDOR_UEI"
  parentCompany := jsOr (extractTag e "ULTIMATE_UEI_NAME") (extractTag e "ultimateParentUEIName")
  obligatedAmount := numField e "obligatedAmount"
  baseAndAllOptions := numField e "baseAndAllOptionsValue"
  signedDate := extractTag e "signedDate"
  startDate := extractTag e "effectiveDate"
  completionDate := jsOr (extractTag e "currentCompletionDate") (extractTag e "ultimateCompletionDate")
  naicsCode := jsOr (extractTag e "principalNAICSCode") (extractTag e "NAICS_CODE")
  naicsDescription := jsOr (extractTag e "principalNAICSDescription") (extractTag e "NAICS_DESCRIPTION")
  pscCode := jsOr (extractTag e "productOrServiceCode") (extractTag e "PRODUCT_OR_SERVICE_CODE")
  setAside := extractTag e "typeOfSetAside"
  description := extractTag e "descriptionOfContractRequirement"

/-- The minimal-content inclusion test of the second variant (line 396):
`contract.piid || contract.vendorName || contract.obligatedAmount > 0`. -/
def minimalContent (c : Contract) : Bool :=
  jsTruthy c.piid || jsTruthy c.vendorName || jsGtZero c.obligatedAmount

/-- First variant's entry loop (lines 119-156): every record is pushed. -/
def assembleV1 : List String → List Contract
  | [] => []
  | e :: es => mkContractV1 e :: assembleV1 es

/-- Second variant's entry loop (lines 351-399): a record is pushed only
when `minimalContent` holds. -/
def assembleV2 : List String → List Contract
  | [] => []
  | e :: es =>
    let c := mkContractV2 e
    if minimalContent c then c :: assembleV2 es else assembleV2 es

/-- The `try { … } catch { return [] }` wrapper of `parseAtomFeed`
(lines 114 and 160-163 / 345 and 405-408): an error anywhere in the
whole-document pass yields the empty list. -/
def catchToEmpty (body : Except String (List Contract)) : List Contract :=
  match body with
  | Except.ok l => l
  | Except.error _ => []

/-- `parseAtomFeed`, first variant (lines 111-164).  Every operation in
the loop body is total, so the guarded body never signals an error. -/
def parseAtomFeedV1 (xmlText : String) : List Contract :=
  catchToEmpty (Except.ok (assembleV1 (extractEntries xmlText)))

/-- `parseAtomFeed`, second variant (lines 342-409). -/
def parseAtomFeedV2 (xmlText : String) : List Contract :=
  catchToEmpty (Except.ok (assembleV2 (extractEntries xmlText)))

/-! Section: Query builders (lines 73-108 / 313-339) -/

/-- The recognized query-string parameters (absent keys are `none`;
JS truthiness also skips `""`). -/
structure Params where
  naics : Option String
  agency : Option String
  startDate : Option String
  endDate : Option String
  setAside : Option String
  minValue : Option String
  maxValue : Option String
deriving DecidableEq, Repr

/-- `conditions.join(' ')`. -/
def joinSp : List String → String
  | [] => ""
  | [s] => s
  | s :: rest => s ++ " " ++ joinSp rest

/-- Substring test (used to state the absence or presence of a clause
in a built query). -/
def containsSub : List Char → List Char → Bool
  | [], needle => startsWithL needle []
  | c :: rest, needle => startsWithL needle (c :: rest) || containsSub rest needle

/-- The date normalization of lines 88-89 / 328-329: a global regex
replace of every hyphen with a slash. -/
def replaceDashes (s : String) : String :=
  String.mk (s.data.map (fun c => if c = '-' then '/' else c))

/-- `buildFPDSQuery`, first variant (lines 73-108): NAICS, agency,
signed-date range, set-aside, value range, then the unconditional
`CONTRACT_TYPE:"AWARD"` clause; wildcard only when no clause at all. -/
def buildFPDSQueryV1 (p : Params) : String :=
  let c1 := if jsTruthy p.naics then ["PRINCIPAL_NAICS_CODE:\"" ++ p.naics.getD "" ++ "\""] else []
  let c2 := if jsTruthy p.agency then ["AGENCY_CODE:\"" ++ p.agency.getD "" ++ "\""] else []
  let c3 :=
    if jsTruthy p.startDate && jsTruthy p.endDate then
      ["SIGNED_DATE:[" ++ replaceDashes (p.startDate.getD "") ++ "," ++
        replaceDashes (p.endDate.getD "") ++ "]"]
    else []
  let c4 := if jsTruthy p.setAside then ["SOCIO_ECONOMIC_INDICATORS:\"" ++ p.setAside.getD "" ++ "\""] else []
  let c5 :=
    if jsTruthy p.minValue && jsTruthy p.maxValue then
      ["OBLIGATED_AMOUNT:[" ++ p.minValue.getD "" ++ "," ++ p.maxValue.getD "" ++ "]"]
    else []
  let conditions := c1 ++ c2 ++ c3 ++ c4 ++ c5 ++ ["CONTRACT_TYPE:\"AWARD\""]
  if conditions.length > 0 then joinSp conditions else "*"

/-- `buildFPDSQuery`, second variant (lines 313-339): NAICS, contracting
agency, last-modified-date range; `*` when no clause. -/
def buildFPDSQueryV2 (p : Params) : String :=
  let c1 := if jsTruthy p.naics then ["PRINCIPAL_NAICS_CODE:\"" ++ p.naics.getD "" ++ "\""] else []
  let c2 := if jsTruthy p.agency then ["CONTRACTING_AGENCY_ID:\"" ++ p.agency.getD "" ++ "\""] else []
  let c3 :=
    if jsTruthy p.startDate && jsTruthy p.endDate then
      ["LAST_MOD_DATE:[" ++ replaceDashes (p.startDate.getD "") ++ "," ++
        replaceDashes (p.endDate.getD "") ++ "]"]
    else []
  let conditions := c1 ++ c2 ++ c3
  if conditions.length = 0 then "*" else joinSp conditions

/-! Section: Decimal rendering of dates (lines 214-240) -/

/-- One decimal digit as a character (`n` is always a `% 10` residue). -/
def digitChar (n : Nat) : Char :=
  match n with
  | 0 => '0' | 1 => '1' | 2 => '2' | 3 => '3' | 4 => '4'
  | 5 => '5' | 6 => '6' | 7 => '7' | 8 => '8' | _ => '9'

/-- Little-endian decimal digits of `n` (fuel-driven; `fuel ≥ n`
suffices since the argument strictly decreases). -/
def natToCharsAux : Nat → Nat → List Char
  | 0, _ => []
  | Nat.succ fuel, n =>
    if n = 0 then [] else digitChar (n % 10) :: natToCharsAux fuel (n / 10)

/-- Decimal rendering of a natural number, as JS `String(n)`. -/
def natToChars (n : Nat) : List Char :=
  if n = 0 then ['0'] else (natToCharsAux n n).reverse

/-- `String(n).padStart(2, '0')` for the month/day components. -/
def padTwo (n : Nat) : List Char :=
  if n < 10 then '0' :: natToChars n else natToChars n

/-- A calendar date as the second variant's handler manipulates it
(1-based month).  JS `Date` day/month overflow normalization (e.g.
Feb 29 in a non-leap year) is not modelled; the claims below depend
only on the shape of the formatted output. -/
structure YMD where
  year : Nat
  month : Nat
  day : Nat
deriving DecidableEq, Repr

/-- The `formatDate` closure (lines 218-223 / 233-238): `MM/DD/YYYY`. -/
def formatDate (t : YMD) : String :=
  String.mk (padTwo t.month ++ '/' :: padTwo t.day ++ '/' :: natToChars t.year)

/-- `setFullYear(today.getFullYear() - 2)` (line 216). -/
def twoYearsBefore (t : YMD) : YMD := ⟨t.year - 2, t.month, t.day⟩

/-- `setMonth(today.getMonth() - 1)` (line 231), with January rolling
back to December of the previous year. -/
def oneMonthBefore (t : YMD) : YMD :=
  if t.month = 1 then ⟨t.year - 1, 12, t.day⟩ else ⟨t.year, t.month - 1, t.day⟩

/-- The second variant's inline handler query construction
(lines 207-241): with a truthy `naics`, the NAICS clause plus a
two-year `LAST_MOD_DATE` window ending today; otherwise a one-month
`LAST_MOD_DATE` window ending today. -/
def handlerQueryV2 (p : Params) (today : YMD) : String :=
  if jsTruthy p.naics then
    "PRINCIPAL_NAICS_CODE:\"" ++ p.naics.getD "" ++ "\"" ++
      " LAST_MOD_DATE:[" ++ formatDate (twoYearsBefore today) ++ "," ++ formatDate today ++ "]"
  else
    "LAST_MOD_DATE:[" ++ formatDate (oneMonthBefore today) ++ "," ++ formatDate today ++ "]"

/-! Section: The handler boundary (lines 4-70 / 189-310)

The outbound fetch is the external collaborator: its outcome (an HTTP
response or a transport error) is a parameter.  The JSON body is
modelled structurally (serialization by `JSON.stringify` and the
constant CORS headers are out of scope). -/

/-- Outcome of the single outbound fetch. -/
inductive FetchOutcome where
  | ok (status : Nat) (body : String)
  | err (msg : String)
deriving DecidableEq, Repr

/-- The response-envelope body shapes the handlers produce. -/
inductive RespBody where
  | empty : RespBody
  | success (count : Nat) (data : List Contract) : RespBody
  | failure (error : String) : RespBody
deriving DecidableEq, Repr

/-- An HTTP response as returned by the handlers. -/
structure Resp where
  statusCode : Nat
  body : RespBody
deriving DecidableEq, Repr

/-- The `success` field of the JSON envelope (`none` for the empty
preflight body). -/
def successFlag : RespBody → Option Bool
  | RespBody.empty => none
  | RespBody.success _ _ => some true
  | RespBody.failure _ => some false

/-- The guarded body of the first variant's handler (lines 18-57):
a transport error rejects; `response.ok` is `200 ≤ status ≤ 299`, any
other status throws `FPDS API error: …`; otherwise the parsed feed. -/
def handlerCoreV1 (p : Params) (o : FetchOutcome) : Except String (List Contract) :=
  let _query := buildFPDSQueryV1 p
  match o with
  | FetchOutcome.err m => Except.error m
  | FetchOutcome.ok status body =>
    if 200 ≤ status && status ≤ 299 then Except.ok (parseAtomFeedV1 body)
    else Except.error ("FPDS API error: " ++ String.mk (natToChars status))

/-- The guarded body of the second variant's handler (lines 203-293):
only status exactly 200 resolves; anything else rejects with
`FPDS returned status …`. -/
def handlerCoreV2 (p : Params) (today : YMD) (o : FetchOutcome) : Except String (List Contract) :=
  let _query := handlerQueryV2 p today
  match o with
  | FetchOutcome.err m => Except.error m
  | FetchOutcome.ok status body =>
    if status = 200 then Except.ok (parseAtomFeedV2 body)
    else Except.error ("FPDS returned status " ++ String.mk (natToChars status))

/-- First ("strict") handler (lines 4-70): preflight short-circuits;
a caught error becomes a 500 with `success:false`. -/
def handlerV1 (httpMethod : String) (p : Params) (o : FetchOutcome) : Resp :=
  if httpMethod = "OPTIONS" then ⟨200, RespBody.empty⟩
  else
    match handlerCoreV1 p o with
    | Except.ok d => ⟨200, RespBody.success d.length d⟩
    | Except.error m => ⟨500, RespBody.failure m⟩

/-- Second ("lenient") handler (lines 189-310): a caught error becomes
a 200 with the error reported in the body. -/
def handlerV2 (httpMethod : String) (p : Params) (today : YMD) (o : FetchOutcome) : Resp :=
  if httpMethod = "OPTIONS" then ⟨200, RespBody.empty⟩
  else
    match handlerCoreV2 p today o with
    | Except.ok d => ⟨200, RespBody.success d.length d⟩
    | Except.error m => ⟨200, RespBody.failure m⟩

/-! Section: A date parser for the round-trip property -/

/-- Numeric reading of a component: all-digit, non-empty. -/
def charsToNat? (l : List Char) : Option Nat :=
  if l.isEmpty then none
  else if l.all Char.isDigit then some (decValue l) else none

/-- Split a character list at every occurrence of `sep`. -/
def splitChars (sep : Char) : List Char → List (List Char)
  | [] => [[]]
  | c :: rest =>
    let r := splitChars sep rest
    if c = sep then [] :: r
    else
      match r with
      | h :: t => (c :: h) :: t
      | [] => [[c]]

/-- Modelled from the spec: §8's round-trip property feeds the Query
Builder's date-normalized output "back through a date parser"; the
repository contains no date parser (the normalized dates are consumed
upstream by FPDS), so a plain `YYYY/MM/DD` reader is modelled from the
spec's words. -/
def parseSlashDate (s : String) : Option (Nat × Nat × Nat) :=
  match splitChars '/' s.data with
  | [a, b, c] =>
    match charsToNat? a, charsToNat? b, charsToNat? c with
    | some y, some m, some d => some (y, m, d)
    | _, _, _ => none
  | _ => none

/-- A well-formed `YYYY-MM-DD` date string, built from its calendar
components (the form the spec's round-trip property quantifies over). -/
def formatISO (y m d : Nat) : String :=
  String.mk (natToChars y ++ '-' :: (padTwo m ++ '-' :: padTwo d))

/-! Part: Lemmas -/

theorem findFirst_eq_none (f : List Char → Option (List Char)) :
    ∀ s, findFirst f s = none ↔ ∀ i, f (s.drop i) = none := by
  intro s
  induction s with
  | nil =>
    constructor
    · intro h i
      simpa [List.drop_nil] using h
    · intro h
      simpa using h 0
  | cons c cs ih =>
    cases hf : f (c :: cs) with
    | some cap =>
      simp only [findFirst, hf]
      constructor
      · intro h
        cases h
      · intro h
        have := h 0
        simp [hf] at this
    | none =>
      simp only [findFirst, hf]
      rw [ih]
      constructor
      · intro h i
        cases i with
        | zero => simpa using hf
        | succ j => simpa using h j
      · intro h j
        have := h (j + 1)
        simpa using this

theorem extractTag_none_iff (xml tag : String) :
    extractTag xml tag = none ↔
      findFirst (tryAtNs tag.data) xml.data = none ∧
        findFirst (tryAtBare tag.data) xml.data = none := by
  unfold extractTag
  cases h1 : findFirst (tryAtNs tag.data) xml.data with
  | some cap => simp [h1]
  | none =>
    cases h2 : findFirst (tryAtBare tag.data) xml.data with
    | some cap => simp [h2]
    | none => simp [h2]

theorem assembleV1_eq_map (es : List String) :
    assembleV1 es = es.map mkContractV1 := by
  induction es with
  | nil => rfl
  | cons e es ih => simp [assembleV1, ih]

theorem assembleV2_eq_filter_map (es : List String) :
    assembleV2 es = (es.map mkContractV2).filter minimalContent := by
  induction es with
  | nil => rfl
  | cons e es ih =>
    by_cases h : minimalContent (mkContractV2 e)
    · simp [assembleV2, List.filter_cons, h, ih]
    · simp [assembleV2, List.filter_cons, h, ih]

theorem startsWithL_self_append (n r : List Char) :
    startsWithL n (n ++ r) = true := by
  induction n with
  | nil => simp [startsWithL]
  | cons c cs ih => simp [startsWithL, ih]

theorem containsSub_parts (a n r : List Char) :
    containsSub (a ++ (n ++ r)) n = true := by
  induction a with
  | nil =>
    cases hn : n ++ r with
    | nil =>
      have : n = [] := by
        cases n with
        | nil => rfl
        | cons x xs => simp at hn
      simp [this, containsSub, startsWithL]
    | cons c rest =>
      have h1 : startsWithL n (c :: rest) = true := by
        rw [← hn]
        exact startsWithL_self_append n r
      simp [containsSub, h1]
  | cons x xs ih =>
    simp [containsSub, ih]

theorem takeWhile_append_all {p : Char → Bool} (a b : List Char)
    (h : ∀ c ∈ a, p c = true) :
    (a ++ b).takeWhile p = a ++ b.takeWhile p := by
  induction a with
  | nil => rfl
  | cons c cs ih =>
    have hc : p c = true := h c (by simp)
    simp [List.takeWhile_cons, hc]
    exact ih fun x hx => h x (by simp [hx])

theorem dropWhile_append_all {p : Char → Bool} (a b : List Char)
    (h : ∀ c ∈ a, p c = true) :
    (a ++ b).dropWhile p = b.dropWhile p := by
  induction a with
  | nil => rfl
  | cons c cs ih =>
    have hc : p c = true := h c (by simp)
    simp [List.dropWhile_cons, hc]
    exact ih fun x hx => h x (by simp [hx])

/-! Part: Claims -/

/-- C1.  `extractTag` tries the namespaced regex first and returns the
first match's capture trimmed; it yields `null` exactly when neither
the namespaced nor the bare regex matches at any start position; on the
spec's example markup it extracts the text and the attribute. -/
theorem claim1 (xml tag : String) :
    ((extractTag xml tag = none) ↔
      ∀ i, tryAtNs tag.data (xml.data.drop i) = none ∧
        tryAtBare tag.data (xml.data.drop i) = none)
    ∧ (∀ cap, findFirst (tryAtNs tag.data) xml.data = some cap →
        extractTag xml tag = some (trimS cap))
    ∧ extractTag "<ns2:Foo attr=\"x\">bar</ns2:Foo>" "Foo" = some "bar"
    ∧ extractTagAttribute "<ns2:Foo attr=\"x\">bar</ns2:Foo>" "Foo" "attr" = some "x" := by
  refine ⟨?_, ?_, by decide, by decide⟩
  · rw [extractTag_none_iff, findFirst_eq_none, findFirst_eq_none, ← forall_and]
  · intro cap h
    unfold extractTag
    simp [h]

theorem claim1_witness :
    extractTag "<ns2:Foo attr=\"x\">bar</ns2:Foo>" "Foo" = some "bar" :=
  (claim1 "<ns2:Foo attr=\"x\">bar</ns2:Foo>" "Foo").2.2.1

/-- C2 counterexample.  In the first variant of `parseAtomFeed` an
entry with no recognized fields still produces a record: the
minimal-content predicate is false on it, yet it is in the output. -/
theorem claim2_counterexample :
    minimalContent (mkContractV1 "<foo>1</foo>") = false
    ∧ parseAtomFeedV1 "<entry><foo>1</foo></entry>" = [mkContractV1 "<foo>1</foo>"]
    ∧ parseAtomFeedV1 "<entry><foo>1</foo></entry>" ≠ [] := by
  refine ⟨by decide, by decide, by decide⟩

/-- C2 amended.  Only the second variant applies the minimal-content
predicate: its output is exactly the per-entry records filtered by the
predicate; the first variant keeps every parsed entry. -/
theorem claim2 (xmlText : String) :
    parseAtomFeedV2 xmlText
      = ((extractEntries xmlText).map mkContractV2).filter minimalContent
    ∧ parseAtomFeedV1 xmlText = (extractEntries xmlText).map mkContractV1 := by
  constructor
  · show catchToEmpty (Except.ok (assembleV2 (extractEntries xmlText))) = _
    rw [assembleV2_eq_filter_map]
    rfl
  · show catchToEmpty (Except.ok (assembleV1 (extractEntries xmlText))) = _
    rw [assembleV1_eq_map]
    rfl

theorem claim2_witness :
    parseAtomFeedV2 "<entry><PIID></PIID></entry>"
      = ((extractEntries "<entry><PIID></PIID></entry>").map mkContractV2).filter
          minimalContent :=
  (claim2 "<entry><PIID></PIID></entry>").1

/-- C5.  The whole-document pass is wrapped in a catch that converts
any internal error into the empty list, which is also what a document
with zero (valid) entries yields — the two outcomes are
indistinguishable; both `parseAtomFeed` variants are the catch wrapper
applied to the (total) per-entry pass. -/
theorem claim5 (msg : String) (xmlText : String) :
    catchToEmpty (Except.error msg) = []
    ∧ catchToEmpty (Except.error msg) = catchToEmpty (Except.ok ([] : List Contract))
    ∧ parseAtomFeedV1 xmlText = catchToEmpty (Except.ok (assembleV1 (extractEntries xmlText)))
    ∧ parseAtomFeedV2 xmlText = catchToEmpty (Except.ok (assembleV2 (extractEntries xmlText))) :=
  ⟨rfl, rfl, rfl, rfl⟩

theorem claim5_witness :
    catchToEmpty (Except.error "boom") = [] :=
  (claim5 "boom" "").1

/-- C10.  A present-but-empty (or whitespace-only) tag extracts as the
empty string, distinguishable from a missing tag (`null`), while the
empty string is falsy and so still counts as not-present for the
minimal-content inclusion predicate. -/
theorem claim10 :
    extractTag "<Foo></Foo>" "Foo" = some ""
    ∧ extractTag "<Foo>   </Foo>" "Foo" = some ""
    ∧ extractTag "<Bar>x</Bar>" "Foo" = none
    ∧ jsTruthy (some "") = false
    ∧ (mkContractV2 "<PIID></PIID>").piid = some ""
    ∧ minimalContent (mkContractV2 "<PIID></PIID>") = false
    ∧ parseAtomFeedV2 "<entry><PIID></PIID></entry>" = [] := by
  refine ⟨by decide, by decide, by decide, by decide, by decide, by decide, by decide⟩

/-- C4 counterexample.  Numeric tag text with no parsable numeric
prefix does not default to `0`: `parseFloat('abc')` is `NaN`, and the
assembled record carries `NaN`, which differs from `0`. -/
theorem claim4_counterexample :
    (mkContractV2 "<obligatedAmount>abc</obligatedAmount>").obligatedAmount = JSNum.nan
    ∧ (mkContractV1 "<obligatedAmount>abc</obligatedAmount>").obligatedAmount = JSNum.nan
    ∧ JSNum.nan ≠ JSNum.val 0 1
    ∧ parseFloat "abc" = JSNum.nan := by
  refine ⟨by decide, by decide, by decide, by decide⟩

/-- C4 amended.  A numeric field is `0` when its tag is absent or its
text is empty (the `|| '0'` fallback); parsing is total (never raises);
but non-empty text that is unparsable as a number yields `NaN`, not
`0`: present non-empty text is passed to `parseFloat` verbatim. -/
theorem claim4 (e : String) :
    (extractTag e "obligatedAmount" = none →
      (mkContractV1 e).obligatedAmount = JSNum.val 0 1
      ∧ (mkContractV2 e).obligatedAmount = JSNum.val 0 1)
    ∧ (extractTag e "obligatedAmount" = some "" →
      (mkContractV1 e).obligatedAmount = JSNum.val 0 1
      ∧ (mkContractV2 e).obligatedAmount = JSNum.val 0 1)
    ∧ (extractTag e "baseAndAllOptionsValue" = none →
      (mkContractV1 e).baseAndAllOptions = JSNum.val 0 1
      ∧ (mkContractV2 e).baseAndAllOptions = JSNum.val 0 1)
    ∧ (∀ s, extractTag e "obligatedAmount" = some s → s ≠ "" →
      (mkContractV1 e).obligatedAmount = parseFloat s
      ∧ (mkContractV2 e).obligatedAmount = parseFloat s) := by
  have hz : parseFloat "0" = JSNum.val 0 1 := by decide
  refine ⟨fun h => ?_, fun h => ?_, fun h => ?_, fun s h hs => ?_⟩
  · constructor
    · show numField e "obligatedAmount" = _
      rw [numField, h]
      exact hz
    · show numField e "obligatedAmount" = _
      rw [numField, h]
      exact hz
  · constructor
    · show numField e "obligatedAmount" = _
      rw [numField, h]
      simpa [jsOrStr] using hz
    · show numField e "obligatedAmount" = _
      rw [numField, h]
      simpa [jsOrStr] using hz
  · constructor
    · show numField e "baseAndAllOptionsValue" = _
      rw [numField, h]
      exact hz
    · show numField e "baseAndAllOptionsValue" = _
      rw [numField, h]
      exact hz
  · constructor
    · show numField e "obligatedAmount" = _
      rw [numField, h]
      simp [jsOrStr, hs]
    · show numField e "obligatedAmount" = _
      rw [numField, h]
      simp [jsOrStr, hs]

theorem claim4_witness :
    (mkContractV1 "x").obligatedAmount = JSNum.val 0 1
    ∧ (mkContractV2 "x").obligatedAmount = JSNum.val 0 1 :=
  (claim4 "x").1 (by decide)

/-- C6.  With zero recognized (truthy) filter keys, the first query
builder yields its default clause and the second the wildcard
sentinel; neither is the empty string. -/
theorem claim6 (p : Params)
    (h : jsTruthy p.naics = false ∧ jsTruthy p.agency = false ∧ jsTruthy p.startDate = false
      ∧ jsTruthy p.endDate = false ∧ jsTruthy p.setAside = false ∧ jsTruthy p.minValue = false
      ∧ jsTruthy p.maxValue = false) :
    buildFPDSQueryV1 p = "CONTRACT_TYPE:\"AWARD\""
    ∧ buildFPDSQueryV2 p = "*"
    ∧ buildFPDSQueryV1 p ≠ ""
    ∧ buildFPDSQueryV2 p ≠ "" := by
  obtain ⟨h1, h2, h3, h4, h5, h6, h7⟩ := h
  have e1 : buildFPDSQueryV1 p = "CONTRACT_TYPE:\"AWARD\"" := by
    simp [buildFPDSQueryV1, h1, h2, h3, h4, h5, h6, h7, joinSp]
  have e2 : buildFPDSQueryV2 p = "*" := by
    simp [buildFPDSQueryV2, h1, h2, h3]
  refine ⟨e1, e2, ?_, ?_⟩
  · rw [e1]
    decide
  · rw [e2]
    decide

theorem claim6_witness :
    buildFPDSQueryV1 (Params.mk none none none none none none none) = "CONTRACT_TYPE:\"AWARD\""
    ∧ buildFPDSQueryV2 (Params.mk none none none none none none none) = "*"
    ∧ buildFPDSQueryV1 (Params.mk none none none none none none none) ≠ ""
    ∧ buildFPDSQueryV2 (Params.mk none none none none none none none) ≠ "" :=
  claim6 (Params.mk none none none none none none none)
    ⟨rfl, rfl, rfl, rfl, rfl, rfl, rfl⟩

/-- C7.  Every error signalled while handling a non-preflight request
is caught at the boundary and rendered as an envelope with
`success:false`: the strict variant answers HTTP 500, the lenient
variant HTTP 200 with the error in the body; neither lets the error
propagate (every outcome is one of the envelope responses). -/
theorem claim7 (method : String) (p : Params) (t : YMD) (o : FetchOutcome) (m : String)
    (hm : method ≠ "OPTIONS") :
    (handlerCoreV1 p o = Except.error m →
      handlerV1 method p o = ⟨500, RespBody.failure m⟩
      ∧ successFlag (handlerV1 method p o).body = some false)
    ∧ (handlerCoreV2 p t o = Except.error m →
      handlerV2 method p t o = ⟨200, RespBody.failure m⟩
      ∧ successFlag (handlerV2 method p t o).body = some false)
    ∧ ((handlerV1 method p o).statusCode = 200 ∨ (handlerV1 method p o).statusCode = 500)
    ∧ (handlerV2 method p t o).statusCode = 200 := by
  refine ⟨fun h => ?_, fun h => ?_, ?_, ?_⟩
  · have e : handlerV1 method p o = ⟨500, RespBody.failure m⟩ := by
      simp [handlerV1, hm, h]
    exact ⟨e, by rw [e]; rfl⟩
  · have e : handlerV2 method p t o = ⟨200, RespBody.failure m⟩ := by
      simp [handlerV2, hm, h]
    exact ⟨e, by rw [e]; rfl⟩
  · unfold handlerV1
    split
    · left; rfl
    · cases handlerCoreV1 p o with
      | ok d => left; rfl
      | error msg => right; rfl
  · unfold handlerV2
    split
    · rfl
    · cases handlerCoreV2 p t o with
      | ok d => rfl
      | error msg => rfl

theorem claim7_witness :
    handlerV1 "GET" (Params.mk none none none none none none none) (FetchOutcome.err "boom")
        = ⟨500, RespBody.failure "boom"⟩
    ∧ successFlag (handlerV1 "GET" (Params.mk none none none none none none none)
        (FetchOutcome.err "boom")).body = some false :=
  (claim7 "GET" (Params.mk none none none none none none none) ⟨2024, 1, 2⟩
    (FetchOutcome.err "boom") "boom" (by decide)).1 rfl

/-- C3 counterexample.  `buildFPDSQuery` adds no default date clause:
for the filter `{naics: "541511"}` (no date range supplied) the first
variant's constructed query is the NAICS clause plus the award-type
clause only — it contains no date-range clause (indeed no range
bracket at all), so that query is not bounded by any recency window. -/
theorem claim3_counterexample :
    buildFPDSQueryV1 (Params.mk (some "541511") none none none none none none)
      = "PRINCIPAL_NAICS_CODE:\"541511\" CONTRACT_TYPE:\"AWARD\""
    ∧ containsSub ("PRINCIPAL_NAICS_CODE:\"541511\" CONTRACT_TYPE:\"AWARD\"").data
        ("DATE:[").data = false
    ∧ containsSub ("PRINCIPAL_NAICS_CODE:\"541511\" CONTRACT_TYPE:\"AWARD\"").data
        ("[").data = false := by
  refine ⟨by decide, by decide, by decide⟩

/-- C3 amended.  The default recency window lives in the second
variant's inline handler query construction, not in `buildFPDSQuery`:
with a truthy NAICS filter that query is the NAICS clause plus a
bounded two-year `LAST_MOD_DATE` window ending today, and with no
recognized filter it is a bounded one-month window; in both cases the
query contains a bounded `LAST_MOD_DATE:[…]` clause. -/
theorem claim3 (p : Params) (t : YMD) :
    (jsTruthy p.naics = true →
      handlerQueryV2 p t
        = "PRINCIPAL_NAICS_CODE:\"" ++ p.naics.getD "" ++ "\"" ++ " LAST_MOD_DATE:["
            ++ formatDate (twoYearsBefore t) ++ "," ++ formatDate t ++ "]")
    ∧ (jsTruthy p.naics = false →
      handlerQueryV2 p t
        = "LAST_MOD_DATE:[" ++ formatDate (oneMonthBefore t) ++ "," ++ formatDate t ++ "]")
    ∧ containsSub (handlerQueryV2 p t).data ("LAST_MOD_DATE:[").data = true := by
  refine ⟨fun h => ?_, fun h => ?_, ?_⟩
  · simp [handlerQueryV2, h]
  · simp [handlerQueryV2, h]
  · unfold handlerQueryV2
    split
    · have : ("PRINCIPAL_NAICS_CODE:\"" ++ p.naics.getD "" ++ "\"" ++ " LAST_MOD_DATE:["
          ++ formatDate (twoYearsBefore t) ++ "," ++ formatDate t ++ "]").data
          = (("PRINCIPAL_NAICS_CODE:\"" ++ p.naics.getD "" ++ "\"").data ++ [' '])
            ++ (("LAST_MOD_DATE:[").data
              ++ ((formatDate (twoYearsBefore t) ++ "," ++ formatDate t ++ "]").data)) := by
        simp [String.data_append, List.append_assoc]
      rw [this]
      exact containsSub_parts _ _ _
    · have : ("LAST_MOD_DATE:[" ++ formatDate (oneMonthBefore t) ++ "," ++ formatDate t
          ++ "]").data
          = ([] : List Char)
            ++ (("LAST_MOD_DATE:[").data
              ++ ((formatDate (oneMonthBefore t) ++ "," ++ formatDate t ++ "]").data)) := by
        simp [String.data_append, List.append_assoc]
      rw [this]
      exact containsSub_parts _ _ _

theorem claim3_witness :
    handlerQueryV2 (Params.mk (some "541511") none none none none none none) ⟨2025, 10, 11⟩
      = "PRINCIPAL_NAICS_CODE:\"" ++ (some "541511").getD "" ++ "\"" ++ " LAST_MOD_DATE:["
          ++ formatDate (twoYearsBefore ⟨2025, 10, 11⟩) ++ "," ++ formatDate ⟨2025, 10, 11⟩
          ++ "]" :=
  (claim3 (Params.mk (some "541511") none none none none none none) ⟨2025, 10, 11⟩).1 rfl

/-- C9.  Tag-name matching is prefix-based: the pattern tolerates
arbitrary non-`>` characters between the tag name and the closing `>`,
so a tag whose name merely begins with the requested name also matches;
in particular `extractTag` on markup containing only `<Foobar>x</Foobar>`
returns `"x"` for the tag name `"Foo"` instead of absent. -/
theorem claim9 (extra content : List Char)
    (h1 : ∀ c ∈ extra, c ≠ '>') (h2 : ∀ c ∈ content, c ≠ '<') :
    extractTag (String.mk ('<' :: 'F' :: 'o' :: 'o' :: (extra ++ ('>' :: (content ++ ['<'])))))
        "Foo" = some (trimS content)
    ∧ extractTag "<Foobar>x</Foobar>" "Foo" = some "x" := by
  refine ⟨?_, by decide⟩
  have htail : tagTail (extra ++ ('>' :: (content ++ ['<']))) = some content := by
    have d1 : List.dropWhile (fun c => decide (c ≠ '>')) (extra ++ ('>' :: (content ++ ['<'])))
        = '>' :: (content ++ ['<']) := by
      rw [dropWhile_append_all extra _ (fun c hc => by simp [h1 c hc])]
      simp [List.dropWhile_cons]
    have d2 : List.dropWhile (fun c => decide (c ≠ '<')) (content ++ ['<']) = ['<'] := by
      rw [dropWhile_append_all content _ (fun c hc => by simp [h2 c hc])]
      simp [List.dropWhile_cons]
    have d3 : List.takeWhile (fun c => decide (c ≠ '<')) (content ++ ['<']) = content := by
      rw [takeWhile_append_all content _ (fun c hc => by simp [h2 c hc])]
      simp [List.takeWhile_cons]
    unfold tagTail
    simp only [d1, d2, d3]
  have hmatch : matchLitCI ['F', 'o', 'o']
      ('F' :: 'o' :: 'o' :: (extra ++ ('>' :: (content ++ ['<']))))
      = some (extra ++ ('>' :: (content ++ ['<']))) := by
    simp [matchLitCI, (by decide : eqCI 'F' 'F' = true), (by decide : eqCI 'o' 'o' = true)]
  have hns : nsMark ('F' :: 'o' :: 'o' :: (extra ++ ('>' :: (content ++ ['<'])))) = none := by
    simp [nsMark, matchLitCI, (by decide : eqCI 'n' 'F' = false)]
  have htry : tryAtNs ['F', 'o', 'o']
      ('<' :: 'F' :: 'o' :: 'o' :: (extra ++ ('>' :: (content ++ ['<'])))) = some content := by
    simp only [tryAtNs, hns, hmatch, htail]
  have hfind : findFirst (tryAtNs ("Foo" : String).data)
      ('<' :: 'F' :: 'o' :: 'o' :: (extra ++ ('>' :: (content ++ ['<'])))) = some content := by
    rw [show ("Foo" : String).data = ['F', 'o', 'o'] from rfl]
    simp only [findFirst, htry]
  unfold extractTag
  rw [show (String.mk ('<' :: 'F' :: 'o' :: 'o' :: (extra ++ ('>' :: (content ++ ['<']))))).data
      = '<' :: 'F' :: 'o' :: 'o' :: (extra ++ ('>' :: (content ++ ['<']))) from rfl]
  rw [hfind]

theorem claim9_witness :
    extractTag (String.mk ('<' :: 'F' :: 'o' :: 'o' :: ("bar".data ++ ('>' :: ("x".data ++ ['<'])))))
        "Foo" = some (trimS "x".data) :=
  (claim9 "bar".data "x".data (by decide) (by decide)).1

/-! Section: Decimal round-trip lemmas (for the date normalization claim) -/

theorem digitVal_digitChar (n : Nat) (h : n < 10) : digitVal (digitChar n) = n := by
  interval_cases n <;> decide

theorem isDigit_digitChar (n : Nat) : (digitChar n).isDigit = true := by
  unfold digitChar
  split <;> decide

theorem isDigit_ne (c : Char) (h : c.isDigit = true) : c ≠ '/' ∧ c ≠ '-' := by
  constructor <;> intro hc <;> subst hc <;> exact absurd h (by decide)

theorem ofLE_append (a b : List Char) :
    ofLE (a ++ b) = ofLE a + 10 ^ a.length * ofLE b := by
  induction a with
  | nil => simp [ofLE]
  | cons c cs ih =>
    simp [ofLE, ih, pow_succ]
    ring

theorem natToCharsAux_val : ∀ fuel n, n ≤ fuel → ofLE (natToCharsAux fuel n) = n := by
  intro fuel
  induction fuel with
  | zero =>
    intro n h
    interval_cases n
    simp [natToCharsAux, ofLE]
  | succ f ih =>
    intro n h
    by_cases h0 : n = 0
    · simp [natToCharsAux, h0, ofLE]
    · have hd : n / 10 < n := Nat.div_lt_self (Nat.pos_of_ne_zero h0) (by norm_num)
      have hf : n / 10 ≤ f := by omega
      have hm : n % 10 < 10 := Nat.mod_lt _ (by norm_num)
      simp [natToCharsAux, h0, ofLE, ih _ hf, digitVal_digitChar _ hm]
      omega

theorem natToCharsAux_digits :
    ∀ fuel n, ∀ c ∈ natToCharsAux fuel n, c.isDigit = true := by
  intro fuel
  induction fuel with
  | zero =>
    intro n c hc
    simp [natToCharsAux] at hc
  | succ f ih =>
    intro n c hc
    by_cases h0 : n = 0
    · simp [natToCharsAux, h0] at hc
    · simp only [natToCharsAux, h0, if_false, List.mem_cons] at hc
      rcases hc with rfl | hc
      · exact isDigit_digitChar _
      · exact ih _ c hc

theorem decValue_natToChars (n : Nat) : decValue (natToChars n) = n := by
  by_cases h0 : n = 0
  · rw [h0]
    decide
  · unfold decValue natToChars
    rw [if_neg h0, List.reverse_reverse]
    exact natToCharsAux_val n n le_rfl

theorem natToChars_digits (n : Nat) : ∀ c ∈ natToChars n, c.isDigit = true := by
  intro c hc
  unfold natToChars at hc
  by_cases h0 : n = 0
  · rw [if_pos h0] at hc
    simp at hc
    subst hc
    decide
  · rw [if_neg h0, List.mem_reverse] at hc
    exact natToCharsAux_digits n n c hc

theorem natToChars_ne_nil (n : Nat) : natToChars n ≠ [] := by
  unfold natToChars
  by_cases h0 : n = 0
  · simp [h0]
  · rw [if_neg h0]
    cases n with
    | zero => exact absurd rfl h0
    | succ f =>
      simp [natToCharsAux]

theorem decValue_padTwo (n : Nat) : decValue (padTwo n) = n := by
  unfold padTwo
  by_cases h : n < 10
  · rw [if_pos h]
    unfold decValue
    rw [List.reverse_cons, ofLE_append]
    have hz : ofLE ['0'] = 0 := by decide
    rw [hz]
    simpa using decValue_natToChars n
  · rw [if_neg h]
    exact decValue_natToChars n

theorem padTwo_digits (n : Nat) : ∀ c ∈ padTwo n, c.isDigit = true := by
  intro c hc
  unfold padTwo at hc
  by_cases h : n < 10
  · rw [if_pos h] at hc
    rcases List.mem_cons.mp hc with rfl | hc
    · decide
    · exact natToChars_digits n c hc
  · rw [if_neg h] at hc
    exact natToChars_digits n c hc

theorem padTwo_ne_nil (n : Nat) : padTwo n ≠ [] := by
  unfold padTwo
  by_cases h : n < 10
  · simp [h]
  · rw [if_neg h]
    exact natToChars_ne_nil n

theorem charsToNat?_eq (l : List Char) (hne : l ≠ []) (hd : ∀ c ∈ l, c.isDigit = true) :
    charsToNat? l = some (decValue l) := by
  cases l with
  | nil => exact absurd rfl hne
  | cons c cs =>
    have hall : (c :: cs).all Char.isDigit = true := by
      rw [List.all_eq_true]
      intro x hx
      exact hd x hx
    simp [charsToNat?, hall]

theorem map_slash_id (l : List Char) (hd : ∀ c ∈ l, c.isDigit = true) :
    l.map (fun c => if c = '-' then '/' else c) = l := by
  induction l with
  | nil => rfl
  | cons c cs ih =>
    have hne : c ≠ '-' := (isDigit_ne c (hd c (by simp))).2
    simp [hne, ih (fun x hx => hd x (by simp [hx]))]

theorem splitChars_no_sep (sep : Char) (l : List Char) (h : ∀ c ∈ l, c ≠ sep) :
    splitChars sep l = [l] := by
  induction l with
  | nil => rfl
  | cons c cs ih =>
    have hc : c ≠ sep := h c (by simp)
    simp [splitChars, hc, ih (fun x hx => h x (by simp [hx]))]

theorem splitChars_sep_append (sep : Char) (a b : List Char) (h : ∀ c ∈ a, c ≠ sep) :
    splitChars sep (a ++ sep :: b) = a :: splitChars sep b := by
  induction a with
  | nil => simp [splitChars]
  | cons c cs ih =>
    have hc : c ≠ sep := h c (by simp)
    simp [splitChars, hc, ih (fun x hx => h x (by simp [hx]))]

/-- C8.  For a well-formed `YYYY-MM-DD` date string, the Query
Builder's normalization (every hyphen replaced by a slash) yields a
string that a `YYYY/MM/DD` date parser reads back as the same calendar
date. -/
theorem claim8 (y m d : Nat) (_hy1 : 1000 ≤ y) (_hy2 : y ≤ 9999)
    (_hm1 : 1 ≤ m) (_hm2 : m ≤ 12) (_hd1 : 1 ≤ d) (_hd2 : d ≤ 31) :
    parseSlashDate (replaceDashes (formatISO y m d)) = some (y, m, d) := by
  have hyd := natToChars_digits y
  have hmd := padTwo_digits m
  have hdd := padTwo_digits d
  have hmap : (replaceDashes (formatISO y m d)).data
      = natToChars y ++ '/' :: (padTwo m ++ '/' :: padTwo d) := by
    show (natToChars y ++ '-' :: (padTwo m ++ '-' :: padTwo d)).map
        (fun c => if c = '-' then '/' else c)
      = natToChars y ++ '/' :: (padTwo m ++ '/' :: padTwo d)
    simp [List.map_append, map_slash_id _ hyd, map_slash_id _ hmd, map_slash_id _ hdd]
  have hsplit : splitChars '/' (natToChars y ++ '/' :: (padTwo m ++ '/' :: padTwo d))
      = [natToChars y, padTwo m, padTwo d] := by
    rw [splitChars_sep_append '/' _ _ (fun c hc => (isDigit_ne c (hyd c hc)).1),
      splitChars_sep_append '/' _ _ (fun c hc => (isDigit_ne c (hmd c hc)).1),
      splitChars_no_sep '/' _ (fun c hc => (isDigit_ne c (hdd c hc)).1)]
  unfold parseSlashDate
  rw [hmap, hsplit]
  simp only [charsToNat?_eq _ (natToChars_ne_nil y) hyd,
    charsToNat?_eq _ (padTwo_ne_nil m) hmd,
    charsToNat?_eq _ (padTwo_ne_nil d) hdd,
    decValue_natToChars, decValue_padTwo]

theorem claim8_witness :
    parseSlashDate (replaceDashes (formatISO 2024 3 7)) = some (2024, 3, 7) :=
  claim8 2024 3 7 (by decide) (by decide) (by decide) (by decide) (by decide) (by decide)

end Fedpie
